import Mathlib

/-!
Shallow embedding of the training/validation loop of
`src/Instrument W&B/01_intro_starter.ipynb`.

Conventions of the embedding:
* Floating point scalars (losses, accuracies, hyperparameters) are modelled
  as rationals `ℚ`.
* A tensor batch `(images, labels)` is modelled as a list pairing each
  flattened image with its integer class label.
* The torch model, the optimizer step and the loss function are external
  library code; they enter the embedding as an abstract `TrainEnv`
  parameter.  A fixed random seed and fixed data order mean a fixed
  `TrainEnv` and a fixed input data list: all randomness (weight
  initialisation, dropout) is resolved inside `TrainEnv`.
* `wandb.init`, `wandb.log` and `wandb.finish` are modelled as events
  appended to a trace, in call order.
* Python exceptions (`ZeroDivisionError`) are modelled with `Except`,
  propagating and aborting the run as the notebook does.
-/

namespace WandbIntro

/-- A flattened image, as fed to the MLP (`nn.Flatten` output). -/
abbrev Input := List ℚ

/-- A batch `(images, labels)`: each image paired with its label.
`len(images)` is the length of the list. -/
abbrev Batch := List (Input × Nat)

/-- The hyperparameter record built in the notebook cell
`config = SimpleNamespace(epochs=…, batch_size=…, lr=…, dropout=…,
slice_size=…, valid_pct=…)`. -/
structure Config where
  epochs : Nat
  batch_size : Nat
  lr : ℚ
  dropout : ℚ
  slice_size : Nat
  valid_pct : ℚ
  deriving DecidableEq, Repr

/-- A metric record handed to `wandb.log`: a Python dict from string keys
to scalar values, modelled as an association list in insertion order. -/
abbrev MetricRecord := List (String × ℚ)

/-- The dict key `"train/train_loss"`. -/
def trainLossKey : String := "train/train_loss"

/-- The dict key `"train/epoch"`. -/
def trainEpochKey : String := "train/epoch"

/-- The dict key `"train/example_ct"`. -/
def trainExampleCtKey : String := "train/example_ct"

/-- The dict key `"val/val_loss"`. -/
def valLossKey : String := "val/val_loss"

/-- The dict key `"val/val_accuracy"`. -/
def valAccuracyKey : String := "val/val_accuracy"

/-- The per-step train metrics dict
`{"train/train_loss": train_loss, "train/epoch": epoch + 1,
"train/example_ct": example_ct}` (`epoch` is the 0-based loop index). -/
def trainMetrics (train_loss : ℚ) (epoch : Nat) (example_ct : Nat) : MetricRecord :=
  [(trainLossKey, train_loss),
   (trainEpochKey, ((epoch + 1 : Nat) : ℚ)),
   (trainExampleCtKey, (example_ct : ℚ))]

/-- The per-epoch validation metrics dict
`{"val/val_loss": val_loss, "val/val_accuracy": accuracy}`. -/
def valMetrics (val_loss : ℚ) (accuracy : ℚ) : MetricRecord :=
  [(valLossKey, val_loss), (valAccuracyKey, accuracy)]

/-- One call into the tracking client: `wandb.init(project, config)`,
`wandb.log(metrics)` or `wandb.finish()`. -/
inductive Event where
  | init (config : Config)
  | log (metrics : MetricRecord)
  | finish
  deriving DecidableEq, Repr

/-- Split a list into consecutive chunks of `bs` elements, the last chunk
possibly shorter: the batches yielded by a torch `DataLoader` with
`drop_last=False` over a dataset in fixed order. -/
def chunks (bs : Nat) : List α → List (List α)
  | [] => []
  | x :: xs =>
    if bs = 0 then []
    else (x :: xs).take bs :: chunks bs ((x :: xs).drop bs)
termination_by l => l.length
decreasing_by
  rename_i h
  have h1 : 0 < bs := Nat.pos_of_ne_zero h
  simp only [List.length_drop, List.length_cons]
  omega

/-- A torch `DataLoader`: the underlying dataset (`dl.dataset`) plus the
batch size; iterating it yields `chunks batch_size dataset`. -/
structure DataLoader where
  dataset : List (Input × Nat)
  batch_size : Nat
  deriving DecidableEq, Repr

/-- The batch stream obtained by iterating the loader. -/
def DataLoader.batches (dl : DataLoader) : List Batch :=
  chunks dl.batch_size dl.dataset

/-- Modelled from the spec: `get_dataloaders(data_dir, batch_size,
slice_size, valid_fraction)` comes from the external `utilities` module,
which is not part of this repository.  Per the spec it returns a
`(training batch stream, validation batch stream)` pair, where
`slice_size` examples are sampled from the full dataset and a
`valid_pct` fraction of them forms the validation partition, the rest the
training partition; both loaders batch with the given batch size and a
fixed data order.  `data` stands for the on-disk dataset. -/
def get_dataloaders (data : List (Input × Nat)) (batch_size : Nat)
    (slice_size : Nat) (valid_pct : ℚ) : DataLoader × DataLoader :=
  let sliced := data.take slice_size
  let n_valid := (Rat.floor (valid_pct * (sliced.length : ℚ))).toNat
  (⟨sliced.drop n_valid, batch_size⟩, ⟨sliced.take n_valid, batch_size⟩)

/-- `n_steps_per_epoch = math.ceil(len(train_dl.dataset) / config.batch_size)`:
the ceiling of `n / bs`, as a natural number (meaningful for `bs ≠ 0`;
for `bs = 0` Python raises `ZeroDivisionError` instead). -/
def n_steps_per_epoch (n bs : Nat) : Nat :=
  (n + bs - 1) / bs

/-- Index of the first maximal entry of a list of logits:
`_, predicted = torch.max(outputs.data, 1)`. -/
def argmaxAux (best : Nat) (bestVal : ℚ) (i : Nat) : List ℚ → Nat
  | [] => best
  | x :: xs => if bestVal < x then argmaxAux i x (i + 1) xs else argmaxAux best bestVal (i + 1) xs

/-- `argmax [] = 0` by convention (a batch row always has `OUTPUT_SIZE = 5`
logits, so the empty case never arises from the model). -/
def argmax : List ℚ → Nat
  | [] => 0
  | x :: xs => argmaxAux 0 x 1 xs

/-- The external torch pieces `train_model` depends on, resolved for a
fixed random seed:
* `initModel dropout` is `get_model(dropout)` together with the
  `Adam` optimizer state — the seeded initial training state;
* `trainStep m batch` performs one forward pass, loss computation,
  backward pass and optimizer step (the model in `train()` mode), and
  returns the updated state and the scalar `train_loss` of the step;
* `evalModel m img` is the logits row the model in `eval()` mode
  produces for one image;
* `loss_func outputs labels` is `loss_func(outputs, labels)`
  (`nn.CrossEntropyLoss()`) on a batch of logits rows and labels. -/
structure TrainEnv (M : Type) where
  initModel : ℚ → M
  trainStep : M → Batch → M × ℚ
  evalModel : M → Input → List ℚ
  loss_func : List (List ℚ) → List Nat → ℚ

/-- One iteration of the validation loop body: accumulates
`val_loss += loss_func(outputs, labels) * labels.size(0)` and
`correct += (predicted == labels).sum().item()`. -/
def valStep (model : Input → List ℚ) (loss_func : List (List ℚ) → List Nat → ℚ)
    (acc : ℚ × Nat) (batch : Batch) : ℚ × Nat :=
  let images := batch.map Prod.fst
  let labels := batch.map Prod.snd
  let outputs := images.map model
  (acc.1 + loss_func outputs labels * (labels.length : ℚ),
   acc.2 + batch.countP (fun ex => argmax (model ex.1) == ex.2))

/-- The final pair `(val_loss / len(valid_dl.dataset),
correct / len(valid_dl.dataset))` of `validate_model`, before the
zero-division check. -/
def valPair (model : Input → List ℚ) (valid_dl : DataLoader)
    (loss_func : List (List ℚ) → List Nat → ℚ) : ℚ × ℚ :=
  let a := valid_dl.batches.foldl (valStep model loss_func) (0, 0)
  (a.1 / (valid_dl.dataset.length : ℚ), (a.2 : ℚ) / (valid_dl.dataset.length : ℚ))

/-- `validate_model(model, valid_dl, loss_func)`: iterates the validation
batches accumulating weighted loss and correct-prediction count, then
divides both by `len(valid_dl.dataset)`.  On an empty validation dataset
the integer division `correct / len(valid_dl.dataset)` raises
`ZeroDivisionError` in Python, modelled by the error branch. -/
def validate_model (model : Input → List ℚ) (valid_dl : DataLoader)
    (loss_func : List (List ℚ) → List Nat → ℚ) : Except String (ℚ × ℚ) :=
  if valid_dl.dataset.length = 0 then .error "ZeroDivisionError"
  else .ok (valPair model valid_dl loss_func)

/-- The mutable state of one `train_model` call: the `config` namespace as
the callee sees it, the model/optimizer state, the running `example_ct`,
and the trace of tracking-client calls made so far. -/
structure TrainState (M : Type) where
  config : Config
  model : M
  example_ct : Nat
  events : List Event

/-- One iteration of the inner `for step, (images, labels) in
enumerate(train_dl)` loop body: one training step, then
`example_ct += len(images)` and `wandb.log(metrics)`. -/
def runStep {M : Type} (env : TrainEnv M) (epoch : Nat)
    (s : TrainState M) (batch : Batch) : TrainState M :=
  let step := env.trainStep s.model batch
  let example_ct := s.example_ct + batch.length
  { s with
    model := step.1
    example_ct := example_ct
    events := s.events ++ [.log (trainMetrics step.2 epoch example_ct)] }

/-- One iteration of the outer `for epoch in range(config.epochs)` loop
body: all training steps of the epoch, then
`val_loss, accuracy = validate_model(model, valid_dl, loss_func)` and
`wandb.log(val_metrics)`; an exception from `validate_model` propagates. -/
def epochBody {M : Type} (env : TrainEnv M) (train_dl valid_dl : DataLoader)
    (s : TrainState M) (epoch : Nat) : Except String (TrainState M) :=
  let s1 := train_dl.batches.foldl (runStep env epoch) s
  match validate_model (env.evalModel s1.model) valid_dl env.loss_func with
  | .error msg => .error msg
  | .ok p => .ok { s1 with events := s1.events ++ [.log (valMetrics p.1 p.2)] }

/-- The outer epoch loop over the 0-based epoch indices, propagating
exceptions. -/
def epochLoop {M : Type} (env : TrainEnv M) (train_dl valid_dl : DataLoader)
    (s : TrainState M) : List Nat → Except String (TrainState M)
  | [] => .ok s
  | e :: es =>
    match epochBody env train_dl valid_dl s e with
    | .error msg => .error msg
    | .ok s1 => epochLoop env train_dl valid_dl s1 es

/-- `train_model(config)`: `wandb.init`, `get_dataloaders`,
`n_steps_per_epoch = math.ceil(len(train_dl.dataset)/config.batch_size)`
(which raises `ZeroDivisionError` when `config.batch_size == 0`),
`get_model(config.dropout)`, the epoch loop, and finally `wandb.finish()`.
`data` is the on-disk dataset read by the data provider. -/
def train_model {M : Type} (env : TrainEnv M) (config : Config)
    (data : List (Input × Nat)) : Except String (TrainState M) :=
  let dls := get_dataloaders data config.batch_size config.slice_size config.valid_pct
  if config.batch_size = 0 then .error "ZeroDivisionError"
  else
    let s0 : TrainState M :=
      { config := config
        model := env.initModel config.dropout
        example_ct := 0
        events := [.init config] }
    match epochLoop env dls.1 dls.2 s0 (List.range config.epochs) with
    | .error msg => .error msg
    | .ok s => .ok { s with events := s.events ++ [.finish] }

/-! ### Derived descriptions of the run

The following definitions restate, by structural recursion, what the
imperative loops of `train_model` compute: the model state threaded
through the training steps, the metric records produced, and the full
event trace.  They are related to `train_model` by the lemmas below. -/

/-- The model/optimizer state after training over a list of batches. -/
def threadModel {M : Type} (env : TrainEnv M) : M → List Batch → M
  | m, [] => m
  | m, b :: bs => threadModel env (env.trainStep m b).1 bs

/-- The model/optimizer state after `k` epochs over the same batch list. -/
def threadEpochs {M : Type} (env : TrainEnv M) (tb : List Batch) : M → Nat → M
  | m, 0 => m
  | m, k + 1 => threadEpochs env tb (threadModel env m tb) k

/-- The per-step metric records of one epoch with 0-based index `epoch`,
starting from model state `m` and running example count `ct`. -/
def stepRecords {M : Type} (env : TrainEnv M) (epoch : Nat) :
    M → Nat → List Batch → List MetricRecord
  | _, _, [] => []
  | m, ct, b :: bs =>
    trainMetrics (env.trainStep m b).2 epoch (ct + b.length) ::
      stepRecords env epoch (env.trainStep m b).1 (ct + b.length) bs

/-- The sequence of per-step training losses over a list of batches. -/
def stepLosses {M : Type} (env : TrainEnv M) : M → List Batch → List ℚ
  | _, [] => []
  | m, b :: bs => (env.trainStep m b).2 :: stepLosses env (env.trainStep m b).1 bs

/-- The `(val_loss, accuracy)` pair `validate_model` computes for model
state `m` (well-defined whenever the validation dataset is non-empty). -/
def valPairOf {M : Type} (env : TrainEnv M) (valid_dl : DataLoader) (m : M) : ℚ × ℚ :=
  valPair (env.evalModel m) valid_dl env.loss_func

/-- The events logged by the epoch loop over the 0-based epoch indices
`es`: for each epoch, its per-step train records in step order, then its
single validation record, then the following epochs. -/
def epochEvents {M : Type} (env : TrainEnv M) (tb : List Batch) (valid_dl : DataLoader) :
    M → Nat → List Nat → List Event
  | _, _, [] => []
  | m, ct, e :: es =>
    (stepRecords env e m ct tb).map Event.log
      ++ Event.log (valMetrics (valPairOf env valid_dl (threadModel env m tb)).1
                               (valPairOf env valid_dl (threadModel env m tb)).2)
        :: epochEvents env tb valid_dl (threadModel env m tb)
            (ct + (tb.map List.length).sum) es

/-- The train records logged by the epoch loop, across all epochs. -/
def runTrainRecords {M : Type} (env : TrainEnv M) (tb : List Batch) :
    M → Nat → List Nat → List MetricRecord
  | _, _, [] => []
  | m, ct, e :: es =>
    stepRecords env e m ct tb
      ++ runTrainRecords env tb (threadModel env m tb) (ct + (tb.map List.length).sum) es

/-- The training losses of the whole run, across all epochs. -/
def runLosses {M : Type} (env : TrainEnv M) (tb : List Batch) : M → Nat → List ℚ
  | _, 0 => []
  | m, k + 1 => stepLosses env m tb ++ runLosses env tb (threadModel env m tb) k

/-- The state a successful `train_model` call returns: the unchanged
config, the model after all epochs, the final example count, and the
full event trace `init`, per-epoch logs, `finish`. -/
def runState {M : Type} (env : TrainEnv M) (config : Config)
    (data : List (Input × Nat)) : TrainState M :=
  let dls := get_dataloaders data config.batch_size config.slice_size config.valid_pct
  { config := config
    model := threadEpochs env dls.1.batches (env.initModel config.dropout) config.epochs
    example_ct := config.epochs * (dls.1.batches.map List.length).sum
    events := .init config ::
      epochEvents env dls.1.batches dls.2 (env.initModel config.dropout) 0
          (List.range config.epochs)
        ++ [.finish] }

/-- The sizes of the batches processed in a run of `k` epochs over the
training batch list `tb`, in processing order. -/
def runSizes (tb : List Batch) (k : Nat) : List Nat :=
  (List.replicate k (tb.map List.length)).flatten

/-- Partial sums: `partialSums ct ns` lists the running totals
`ct + n₁, ct + n₁ + n₂, …`. -/
def partialSums (ct : Nat) : List Nat → List Nat
  | [] => []
  | n :: ns => (ct + n) :: partialSums (ct + n) ns

/-! ### Event classification -/

/-- Is this tracking-client call a `wandb.log` call? -/
def isLogEvent : Event → Bool
  | .log _ => true
  | _ => false

/-- Is this a logged training-step record (it carries the
`train/train_loss` key)? -/
def isTrainLog : Event → Bool
  | .log r => (r.lookup trainLossKey).isSome
  | _ => false

/-- Is this a logged validation record (it carries the `val/val_loss`
key)? -/
def isValLog : Event → Bool
  | .log r => (r.lookup valLossKey).isSome
  | _ => false

/-- Is this the `wandb.finish()` call? -/
def isFinishEvent : Event → Bool
  | .finish => true
  | _ => false

/-- The `train/example_ct` values of the logged records, in log order. -/
def exampleCtsOf (evs : List Event) : List ℚ :=
  evs.filterMap fun ev =>
    match ev with
    | .log r => r.lookup trainExampleCtKey
    | _ => none

/-- Extract a logged training-step record. -/
def trainLogOf : Event → Option MetricRecord
  | .log r => if (r.lookup trainLossKey).isSome then some r else none
  | _ => none

/-- The training-step records of a trace, in log order. -/
def trainRecordsOf (evs : List Event) : List MetricRecord :=
  evs.filterMap trainLogOf

/-- The `val/val_accuracy` value of the last validation record of a run:
the final validation accuracy. -/
def finalValAccuracy {M : Type} (s : TrainState M) : Option ℚ :=
  (s.events.filterMap fun ev =>
    match ev with
    | .log r => r.lookup valAccuracyKey
    | _ => none).getLast?

/-- The training loader `train_dl` of a run. -/
def trainLoader (config : Config) (data : List (Input × Nat)) : DataLoader :=
  (get_dataloaders data config.batch_size config.slice_size config.valid_pct).1

/-- The validation loader `valid_dl` of a run. -/
def validLoader (config : Config) (data : List (Input × Nat)) : DataLoader :=
  (get_dataloaders data config.batch_size config.slice_size config.valid_pct).2

/-! ### Concrete instances used to witness the theorems -/

/-- A trivial training environment over the unit model state: every
training step returns loss `0`, the eval-mode model outputs a single
logit `0`, the loss function returns `0`. -/
def envU : TrainEnv Unit where
  initModel := fun _ => ()
  trainStep := fun _ _ => ((), 0)
  evalModel := fun _ _ => [0]
  loss_func := fun _ _ => 0

/-- A trivial eval-mode model. -/
def modelU : Input → List ℚ := fun _ => [0]

/-- A trivial loss function. -/
def lfU : List (List ℚ) → List Nat → ℚ := fun _ _ => 0

/-- A four-example dataset. -/
def dataW : List (Input × Nat) := List.replicate 4 ([], 0)

/-- A small configuration: one epoch, batch size 2, slice 4, a quarter
held out for validation. -/
def cfgW : Config :=
  { epochs := 1, batch_size := 2, lr := 0, dropout := 0, slice_size := 4, valid_pct := 1/4 }

/-- A one-example validation loader. -/
def vdlW : DataLoader := ⟨[([], 0)], 2⟩

/-- An empty validation loader. -/
def vdlEmpty : DataLoader := ⟨[], 2⟩

/-- A ten-thousand-example dataset, as in the spec's example scenario. -/
def data10k : List (Input × Nat) := List.replicate 10000 ([], 0)

/-- The spec's example Configuration
`{epochs=1, batch_size=128, slice_size=10000, valid_pct=0.2}` (the claim
fixes no learning rate or dropout). -/
def cfg10k (lr dropout : ℚ) : Config :=
  { epochs := 1, batch_size := 128, lr := lr, dropout := dropout,
    slice_size := 10000, valid_pct := 1/5 }

/-! ### Lemmas about `chunks` -/

theorem chunks_nil {α : Type _} (bs : Nat) : chunks bs ([] : List α) = [] := by
  simp [chunks]

theorem chunks_cons {α : Type _} (bs : Nat) (hbs : bs ≠ 0) (x : α) (xs : List α) :
    chunks bs (x :: xs) = (x :: xs).take bs :: chunks bs ((x :: xs).drop bs) := by
  rw [chunks]
  simp [hbs]

theorem chunks_zero {α : Type _} (l : List α) : chunks 0 l = [] := by
  cases l <;> simp [chunks]

theorem chunks_flatten {α : Type _} (bs : Nat) (hbs : bs ≠ 0) (l : List α) :
    (chunks bs l).flatten = l := by
  match l with
  | [] => simp [chunks_nil]
  | x :: xs =>
    rw [chunks_cons bs hbs]
    simp only [List.flatten_cons]
    rw [chunks_flatten bs hbs ((x :: xs).drop bs)]
    exact List.take_append_drop _ _
termination_by l.length
decreasing_by
  have hb : 0 < bs := Nat.pos_of_ne_zero hbs
  simp only [List.length_drop, List.length_cons]
  omega

theorem chunks_length {α : Type _} (bs : Nat) (hbs : bs ≠ 0) (l : List α) :
    (chunks bs l).length = n_steps_per_epoch l.length bs := by
  have hb : 0 < bs := Nat.pos_of_ne_zero hbs
  match l with
  | [] =>
    simp only [chunks_nil, List.length_nil, n_steps_per_epoch]
    rw [Nat.zero_add, Nat.div_eq_of_lt (by omega)]
  | x :: xs =>
    rw [chunks_cons bs hbs, List.length_cons, chunks_length bs hbs]
    simp only [List.length_drop, List.length_cons, n_steps_per_epoch]
    rcases le_or_lt bs (xs.length + 1) with h | h
    · have e1 : xs.length + 1 - bs + bs - 1 = xs.length := by omega
      have e2 : xs.length + 1 + bs - 1 = xs.length + bs := by omega
      rw [e1, e2, Nat.add_div_right _ hb]
    · have e1 : xs.length + 1 - bs = 0 := by omega
      have e2 : 0 + bs - 1 = bs - 1 := by omega
      have e3 : xs.length + 1 + bs - 1 = xs.length + bs := by omega
      rw [e1, e2, e3, Nat.div_eq_of_lt (by omega), Nat.add_div_right _ hb,
        Nat.div_eq_of_lt (by omega)]
termination_by l.length
decreasing_by
  simp only [List.length_drop, List.length_cons]
  omega

theorem chunks_sizes_sum {α : Type _} (bs : Nat) (hbs : bs ≠ 0) (l : List α) :
    ((chunks bs l).map List.length).sum = l.length := by
  rw [← List.length_flatten, chunks_flatten bs hbs]

theorem chunks_flatten_length_le {α : Type _} (bs : Nat) (l : List α) :
    (chunks bs l).flatten.length ≤ l.length := by
  rcases Nat.eq_zero_or_pos bs with h | h
  · subst h
    simp [chunks_zero]
  · rw [chunks_flatten bs (Nat.pos_iff_ne_zero.mp h)]

/-- `n_steps_per_epoch n bs` is the mathematical ceiling of `n / bs`,
as `math.ceil` computes it. -/
theorem n_steps_per_epoch_eq_ceil (n bs : Nat) (hbs : bs ≠ 0) :
    (n_steps_per_epoch n bs : ℤ) = ⌈(n : ℚ) / (bs : ℚ)⌉ := by
  have hb : 0 < bs := Nat.pos_of_ne_zero hbs
  have hbq : (0 : ℚ) < (bs : ℚ) := by exact_mod_cast hb
  have hqr := Nat.div_add_mod (n + bs - 1) bs
  have hr : (n + bs - 1) % bs < bs := Nat.mod_lt _ hb
  have h12 : n ≤ bs * ((n + bs - 1) / bs) ∧ bs * ((n + bs - 1) / bs) < n + bs := by
    generalize bs * ((n + bs - 1) / bs) = p at hqr
    omega
  unfold n_steps_per_epoch
  set q : ℕ := (n + bs - 1) / bs with hq
  symm
  rw [Int.ceil_eq_iff]
  simp only [Int.cast_natCast]
  constructor
  · rw [lt_div_iff₀ hbq]
    have hc : (bs : ℚ) * (q : ℚ) < (n : ℚ) + bs := by exact_mod_cast h12.2
    linarith
  · rw [div_le_iff₀ hbq]
    have hc : (n : ℚ) ≤ (bs : ℚ) * (q : ℚ) := by exact_mod_cast h12.1
    linarith

/-! ### Lookup facts about the metric dicts -/

theorem lookup_trainMetrics_loss (l : ℚ) (e c : Nat) :
    (trainMetrics l e c).lookup trainLossKey = some l := rfl

theorem lookup_trainMetrics_epoch (l : ℚ) (e c : Nat) :
    (trainMetrics l e c).lookup trainEpochKey = some ((e + 1 : Nat) : ℚ) := rfl

theorem lookup_trainMetrics_ct (l : ℚ) (e c : Nat) :
    (trainMetrics l e c).lookup trainExampleCtKey = some ((c : Nat) : ℚ) := rfl

theorem lookup_valMetrics_trainLoss (v a : ℚ) :
    (valMetrics v a).lookup trainLossKey = none := rfl

theorem lookup_valMetrics_trainCt (v a : ℚ) :
    (valMetrics v a).lookup trainExampleCtKey = none := rfl

theorem lookup_valMetrics_valLoss (v a : ℚ) :
    (valMetrics v a).lookup valLossKey = some v := rfl

theorem lookup_valMetrics_acc (v a : ℚ) :
    (valMetrics v a).lookup valAccuracyKey = some a := rfl

theorem lookup_trainMetrics_valLoss (l : ℚ) (e c : Nat) :
    (trainMetrics l e c).lookup valLossKey = none := rfl

theorem lookup_trainMetrics_valAcc (l : ℚ) (e c : Nat) :
    (trainMetrics l e c).lookup valAccuracyKey = none := rfl

theorem trainMetrics_keys (l : ℚ) (e c : Nat) :
    (trainMetrics l e c).map Prod.fst = [trainLossKey, trainEpochKey, trainExampleCtKey] := rfl

/-! ### The training loops, characterized -/

/-- The inner step loop: folding `runStep` over the training batches
threads the model, accumulates `example_ct`, and appends one train log
per batch. -/
theorem foldl_runStep {M : Type} (env : TrainEnv M) (epoch : Nat)
    (bs : List Batch) (s : TrainState M) :
    bs.foldl (runStep env epoch) s =
      { config := s.config
        model := threadModel env s.model bs
        example_ct := s.example_ct + (bs.map List.length).sum
        events := s.events ++ (stepRecords env epoch s.model s.example_ct bs).map Event.log } := by
  induction bs generalizing s with
  | nil => simp [threadModel, stepRecords]
  | cons b bs ih =>
    rw [List.foldl_cons, ih]
    simp [runStep, threadModel, stepRecords, Nat.add_assoc, List.append_assoc]

theorem validate_model_ok (model : Input → List ℚ) (vdl : DataLoader)
    (lf : List (List ℚ) → List Nat → ℚ) (h : vdl.dataset.length ≠ 0) :
    validate_model model vdl lf = .ok (valPair model vdl lf) := by
  simp [validate_model, h]

theorem validate_model_empty (model : Input → List ℚ) (vdl : DataLoader)
    (lf : List (List ℚ) → List Nat → ℚ) (h : vdl.dataset.length = 0) :
    validate_model model vdl lf = .error "ZeroDivisionError" := by
  simp [validate_model, h]

/-- One epoch body, on a non-empty validation dataset: the step logs of
the epoch followed by its validation log. -/
theorem epochBody_ok {M : Type} (env : TrainEnv M) (tdl vdl : DataLoader)
    (s : TrainState M) (e : Nat) (h : vdl.dataset.length ≠ 0) :
    epochBody env tdl vdl s e = .ok
      { config := s.config
        model := threadModel env s.model tdl.batches
        example_ct := s.example_ct + (tdl.batches.map List.length).sum
        events := s.events
          ++ (stepRecords env e s.model s.example_ct tdl.batches).map Event.log
          ++ [Event.log
                (valMetrics (valPairOf env vdl (threadModel env s.model tdl.batches)).1
                  (valPairOf env vdl (threadModel env s.model tdl.batches)).2)] } := by
  unfold epochBody
  rw [foldl_runStep]
  dsimp only
  rw [validate_model_ok _ _ _ h]
  simp [valPairOf, List.append_assoc]

theorem epochBody_err {M : Type} (env : TrainEnv M) (tdl vdl : DataLoader)
    (s : TrainState M) (e : Nat) (h : vdl.dataset.length = 0) :
    epochBody env tdl vdl s e = .error "ZeroDivisionError" := by
  unfold epochBody
  dsimp only
  rw [validate_model_empty _ _ _ h]

/-- The epoch loop, on a non-empty validation dataset. -/
theorem epochLoop_ok {M : Type} (env : TrainEnv M) (tdl vdl : DataLoader)
    (h : vdl.dataset.length ≠ 0) (es : List Nat) (s : TrainState M) :
    epochLoop env tdl vdl s es = .ok
      { config := s.config
        model := threadEpochs env tdl.batches s.model es.length
        example_ct := s.example_ct + es.length * (tdl.batches.map List.length).sum
        events := s.events ++ epochEvents env tdl.batches vdl s.model s.example_ct es } := by
  induction es generalizing s with
  | nil => simp [epochLoop, threadEpochs, epochEvents]
  | cons e es ih =>
    rw [epochLoop, epochBody_ok env tdl vdl s e h]
    simp only []
    rw [ih]
    simp [threadEpochs, epochEvents, Nat.succ_mul, Nat.add_assoc, List.append_assoc,
      Nat.add_comm, Nat.add_left_comm]

theorem epochLoop_err {M : Type} (env : TrainEnv M) (tdl vdl : DataLoader)
    (h : vdl.dataset.length = 0) (e : Nat) (es : List Nat) (s : TrainState M) :
    epochLoop env tdl vdl s (e :: es) = .error "ZeroDivisionError" := by
  rw [epochLoop, epochBody_err env tdl vdl s e h]

/-- A `train_model` call with a positive batch size and (unless there are
no epochs) a non-empty validation partition returns `runState`. -/
theorem train_model_ok {M : Type} (env : TrainEnv M) (config : Config)
    (data : List (Input × Nat)) (hbs : config.batch_size ≠ 0)
    (hv : config.epochs = 0 ∨
      (get_dataloaders data config.batch_size config.slice_size
          config.valid_pct).2.dataset.length ≠ 0) :
    train_model env config data = .ok (runState env config data) := by
  rcases hv with h0 | hv
  · simp only [train_model, runState, hbs, if_false, reduceIte, h0, List.range_zero]
    simp [epochLoop, epochEvents, threadEpochs]
  · simp only [train_model, runState, hbs, reduceIte]
    rw [epochLoop_ok env _ _ hv]
    simp

/-- Conversely, a successful `train_model` call implies a positive batch
size and (unless there are no epochs) a non-empty validation partition,
and the returned state is `runState`. -/
theorem train_model_ok_inv {M : Type} (env : TrainEnv M) (config : Config)
    (data : List (Input × Nat)) (s : TrainState M)
    (h : train_model env config data = .ok s) :
    config.batch_size ≠ 0 ∧
      (config.epochs = 0 ∨
        (get_dataloaders data config.batch_size config.slice_size
            config.valid_pct).2.dataset.length ≠ 0) ∧
      s = runState env config data := by
  by_cases hbs : config.batch_size = 0
  · simp [train_model, hbs] at h
  · by_cases hv : (get_dataloaders data config.batch_size config.slice_size
        config.valid_pct).2.dataset.length = 0
    · by_cases he : config.epochs = 0
      · refine ⟨hbs, .inl he, ?_⟩
        have hok := train_model_ok env config data hbs (.inl he)
        rw [h] at hok
        exact Except.ok.inj hok
      · exfalso
        cases hE : List.range config.epochs with
        | nil => exact he (by simpa [List.range_eq_nil] using hE)
        | cons e es =>
          simp only [train_model, hbs, reduceIte] at h
          rw [hE, epochLoop_err _ _ _ hv] at h
          exact Except.noConfusion h
    · refine ⟨hbs, .inr hv, ?_⟩
      have hok := train_model_ok env config data hbs (.inr hv)
      rw [h] at hok
      exact Except.ok.inj hok

/-! ### Shape of the step records -/

theorem stepRecords_length {M : Type} (env : TrainEnv M) (e : Nat) (m : M) (ct : Nat)
    (bs : List Batch) : (stepRecords env e m ct bs).length = bs.length := by
  induction bs generalizing m ct with
  | nil => rfl
  | cons b bs ih => simp [stepRecords, ih]

theorem mem_stepRecords {M : Type} (env : TrainEnv M) (e : Nat) (m : M) (ct : Nat)
    (bs : List Batch) (r : MetricRecord) (hr : r ∈ stepRecords env e m ct bs) :
    ∃ l c, r = trainMetrics l e c := by
  induction bs generalizing m ct with
  | nil => simp [stepRecords] at hr
  | cons b bs ih =>
    simp only [stepRecords, List.mem_cons] at hr
    rcases hr with h | h
    · exact ⟨_, _, h⟩
    · exact ih _ _ h

theorem countP_stepRecords_log {M : Type} (env : TrainEnv M) (e : Nat) (m : M) (ct : Nat)
    (bs : List Batch) :
    ((stepRecords env e m ct bs).map Event.log).countP isLogEvent = bs.length := by
  rw [← stepRecords_length env e m ct bs, ← List.length_map (stepRecords env e m ct bs) Event.log]
  rw [List.countP_eq_length]
  intro a ha
  simp only [List.mem_map] at ha
  obtain ⟨r, _, rfl⟩ := ha
  rfl

theorem countP_stepRecords_trainLog {M : Type} (env : TrainEnv M) (e : Nat) (m : M) (ct : Nat)
    (bs : List Batch) :
    ((stepRecords env e m ct bs).map Event.log).countP isTrainLog = bs.length := by
  rw [← stepRecords_length env e m ct bs, ← List.length_map (stepRecords env e m ct bs) Event.log]
  rw [List.countP_eq_length]
  intro a ha
  simp only [List.mem_map] at ha
  obtain ⟨r, hr, rfl⟩ := ha
  obtain ⟨l, c, rfl⟩ := mem_stepRecords env e m ct bs r hr
  simp [isTrainLog, lookup_trainMetrics_loss]

theorem countP_stepRecords_valLog {M : Type} (env : TrainEnv M) (e : Nat) (m : M) (ct : Nat)
    (bs : List Batch) :
    ((stepRecords env e m ct bs).map Event.log).countP isValLog = 0 := by
  rw [List.countP_eq_zero]
  intro a ha
  simp only [List.mem_map] at ha
  obtain ⟨r, hr, rfl⟩ := ha
  obtain ⟨l, c, rfl⟩ := mem_stepRecords env e m ct bs r hr
  simp [isValLog, lookup_trainMetrics_valLoss]

theorem countP_stepRecords_finish {M : Type} (env : TrainEnv M) (e : Nat) (m : M) (ct : Nat)
    (bs : List Batch) :
    ((stepRecords env e m ct bs).map Event.log).countP isFinishEvent = 0 := by
  rw [List.countP_eq_zero]
  intro a ha
  simp only [List.mem_map] at ha
  obtain ⟨r, _, rfl⟩ := ha
  simp [isFinishEvent]

/-! ### Counting the events of the epoch loop -/

theorem countP_epochEvents_log {M : Type} (env : TrainEnv M) (tb : List Batch)
    (vdl : DataLoader) (m : M) (ct : Nat) (es : List Nat) :
    (epochEvents env tb vdl m ct es).countP isLogEvent = es.length * (tb.length + 1) := by
  induction es generalizing m ct with
  | nil => simp [epochEvents]
  | cons e es ih =>
    simp only [epochEvents, List.countP_append, List.countP_cons, ih,
      countP_stepRecords_log, List.length_cons]
    simp [isLogEvent, Nat.succ_mul]
    omega

theorem countP_epochEvents_trainLog {M : Type} (env : TrainEnv M) (tb : List Batch)
    (vdl : DataLoader) (m : M) (ct : Nat) (es : List Nat) :
    (epochEvents env tb vdl m ct es).countP isTrainLog = es.length * tb.length := by
  induction es generalizing m ct with
  | nil => simp [epochEvents]
  | cons e es ih =>
    simp only [epochEvents, List.countP_append, List.countP_cons, ih,
      countP_stepRecords_trainLog, List.length_cons]
    simp [isTrainLog, lookup_valMetrics_trainLoss, Nat.succ_mul]
    omega

theorem countP_epochEvents_valLog {M : Type} (env : TrainEnv M) (tb : List Batch)
    (vdl : DataLoader) (m : M) (ct : Nat) (es : List Nat) :
    (epochEvents env tb vdl m ct es).countP isValLog = es.length := by
  induction es generalizing m ct with
  | nil => simp [epochEvents]
  | cons e es ih =>
    simp only [epochEvents, List.countP_append, List.countP_cons, ih,
      countP_stepRecords_valLog, List.length_cons]
    simp [isValLog, lookup_valMetrics_valLoss]

theorem countP_epochEvents_finish {M : Type} (env : TrainEnv M) (tb : List Batch)
    (vdl : DataLoader) (m : M) (ct : Nat) (es : List Nat) :
    (epochEvents env tb vdl m ct es).countP isFinishEvent = 0 := by
  induction es generalizing m ct with
  | nil => simp [epochEvents]
  | cons e es ih =>
    simp only [epochEvents, List.countP_append, List.countP_cons, ih,
      countP_stepRecords_finish]
    simp [isFinishEvent]

/-! ### Partial sums -/

theorem partialSums_length (ct : Nat) (ns : List Nat) :
    (partialSums ct ns).length = ns.length := by
  induction ns generalizing ct with
  | nil => rfl
  | cons n ns ih => simp [partialSums, ih]

theorem partialSums_chain (ct : Nat) (ns : List Nat) :
    List.Chain' (· ≤ ·) (partialSums ct ns) := by
  induction ns generalizing ct with
  | nil => simp [partialSums]
  | cons n ns ih =>
    cases ns with
    | nil => simp [partialSums]
    | cons u us =>
      have h := ih (ct + n)
      simp only [partialSums] at h ⊢
      exact List.chain'_cons.mpr ⟨by omega, h⟩

theorem partialSums_get (ct : Nat) (ns : List Nat) (k : Nat)
    (h : k < (partialSums ct ns).length) :
    (partialSums ct ns).get ⟨k, h⟩ = ct + (ns.take (k + 1)).sum := by
  induction ns generalizing ct k with
  | nil => simp [partialSums] at h
  | cons n ns ih =>
    cases k with
    | zero => simp [partialSums]
    | succ k =>
      simp only [partialSums, List.get_cons_succ]
      rw [ih (ct + n) k]
      simp only [List.take_succ_cons, List.sum_cons]
      omega

theorem partialSums_append (ct : Nat) (ns ms : List Nat) :
    partialSums ct (ns ++ ms) = partialSums ct ns ++ partialSums (ct + ns.sum) ms := by
  induction ns generalizing ct with
  | nil => simp [partialSums]
  | cons n ns ih =>
    simp only [List.cons_append, partialSums, List.append_eq, ih, List.sum_cons]
    rw [Nat.add_assoc]

theorem runSizes_zero (tb : List Batch) : runSizes tb 0 = [] := rfl

theorem runSizes_succ (tb : List Batch) (k : Nat) :
    runSizes tb (k + 1) = tb.map List.length ++ runSizes tb k := by
  simp [runSizes, List.replicate_succ]

/-! ### The example counts of the trace are the partial batch-size sums -/

theorem append_cons_split {α : Type _} (a : List α) (b : α) (c : List α) :
    a ++ b :: c = a ++ [b] ++ c := by simp

theorem exampleCtsOf_append (evs evs' : List Event) :
    exampleCtsOf (evs ++ evs') = exampleCtsOf evs ++ exampleCtsOf evs' := by
  simp [exampleCtsOf]

theorem exampleCtsOf_stepRecords {M : Type} (env : TrainEnv M) (e : Nat) (m : M)
    (ct : Nat) (bs : List Batch) :
    exampleCtsOf ((stepRecords env e m ct bs).map Event.log) =
      (partialSums ct (bs.map List.length)).map (Nat.cast : Nat → ℚ) := by
  induction bs generalizing m ct with
  | nil => rfl
  | cons b bs ih =>
    simp only [stepRecords, List.map_cons, exampleCtsOf, List.filterMap_cons, partialSums]
    simp only [exampleCtsOf] at ih
    rw [lookup_trainMetrics_ct]
    simp only [ih, List.map_cons]

theorem exampleCtsOf_epochEvents {M : Type} (env : TrainEnv M) (tb : List Batch)
    (vdl : DataLoader) (m : M) (ct : Nat) (es : List Nat) :
    exampleCtsOf (epochEvents env tb vdl m ct es) =
      (partialSums ct (runSizes tb es.length)).map (Nat.cast : Nat → ℚ) := by
  induction es generalizing m ct with
  | nil => rfl
  | cons e es ih =>
    simp only [epochEvents, List.length_cons, runSizes_succ]
    rw [append_cons_split, exampleCtsOf_append, exampleCtsOf_append,
      exampleCtsOf_stepRecords, ih]
    rw [partialSums_append]
    have hval : exampleCtsOf [Event.log (valMetrics
        (valPairOf env vdl (threadModel env m tb)).1
        (valPairOf env vdl (threadModel env m tb)).2)] = [] := by
      simp [exampleCtsOf, lookup_valMetrics_trainCt]
    rw [hval]
    simp [List.map_append]

/-! ### The train records of the trace -/

theorem trainRecordsOf_append (evs evs' : List Event) :
    trainRecordsOf (evs ++ evs') = trainRecordsOf evs ++ trainRecordsOf evs' := by
  simp [trainRecordsOf]

theorem trainRecordsOf_stepRecords {M : Type} (env : TrainEnv M) (e : Nat) (m : M)
    (ct : Nat) (bs : List Batch) :
    trainRecordsOf ((stepRecords env e m ct bs).map Event.log) =
      stepRecords env e m ct bs := by
  induction bs generalizing m ct with
  | nil => rfl
  | cons b bs ih =>
    simp only [stepRecords, List.map_cons, trainRecordsOf, List.filterMap_cons, trainLogOf]
    rw [lookup_trainMetrics_loss]
    simp only [Option.isSome_some, if_true]
    simp only [trainRecordsOf] at ih
    rw [ih]

theorem trainRecordsOf_epochEvents {M : Type} (env : TrainEnv M) (tb : List Batch)
    (vdl : DataLoader) (m : M) (ct : Nat) (es : List Nat) :
    trainRecordsOf (epochEvents env tb vdl m ct es) = runTrainRecords env tb m ct es := by
  induction es generalizing m ct with
  | nil => rfl
  | cons e es ih =>
    simp only [epochEvents, runTrainRecords]
    rw [append_cons_split, trainRecordsOf_append, trainRecordsOf_append,
      trainRecordsOf_stepRecords, ih]
    have hval : trainRecordsOf [Event.log (valMetrics
        (valPairOf env vdl (threadModel env m tb)).1
        (valPairOf env vdl (threadModel env m tb)).2)] = [] := by
      simp [trainRecordsOf, trainLogOf, lookup_valMetrics_trainLoss]
    rw [hval]
    simp

/-! ### Field projections of the train records -/

theorem stepRecords_map_keys {M : Type} (env : TrainEnv M) (e : Nat) (m : M) (ct : Nat)
    (bs : List Batch) (r : MetricRecord) (hr : r ∈ stepRecords env e m ct bs) :
    r.map Prod.fst = [trainLossKey, trainEpochKey, trainExampleCtKey] := by
  obtain ⟨l, c, rfl⟩ := mem_stepRecords env e m ct bs r hr
  exact trainMetrics_keys l e c

theorem mem_runTrainRecords {M : Type} (env : TrainEnv M) (tb : List Batch) (m : M)
    (ct : Nat) (es : List Nat) (r : MetricRecord)
    (hr : r ∈ runTrainRecords env tb m ct es) : ∃ l e c, e ∈ es ∧ r = trainMetrics l e c := by
  induction es generalizing m ct with
  | nil => simp [runTrainRecords] at hr
  | cons e es ih =>
    simp only [runTrainRecords, List.mem_append] at hr
    rcases hr with h | h
    · obtain ⟨l, c, rfl⟩ := mem_stepRecords env e m ct tb r h
      exact ⟨l, e, c, by simp, rfl⟩
    · obtain ⟨l, e', c, he, rfl⟩ := ih _ _ h
      exact ⟨l, e', c, by simp [he], rfl⟩

theorem stepRecords_map_epoch {M : Type} (env : TrainEnv M) (e : Nat) (m : M) (ct : Nat)
    (bs : List Batch) :
    (stepRecords env e m ct bs).map (fun r => r.lookup trainEpochKey) =
      List.replicate bs.length (some ((e + 1 : Nat) : ℚ)) := by
  induction bs generalizing m ct with
  | nil => rfl
  | cons b bs ih =>
    simp only [stepRecords, List.map_cons, List.length_cons, List.replicate_succ]
    rw [lookup_trainMetrics_epoch, ih]

theorem runTrainRecords_map_epoch {M : Type} (env : TrainEnv M) (tb : List Batch) (m : M)
    (ct : Nat) (es : List Nat) :
    (runTrainRecords env tb m ct es).map (fun r => r.lookup trainEpochKey) =
      es.flatMap (fun e => List.replicate tb.length (some ((e + 1 : Nat) : ℚ))) := by
  induction es generalizing m ct with
  | nil => rfl
  | cons e es ih =>
    simp only [runTrainRecords, List.map_append, List.flatMap_cons, stepRecords_map_epoch, ih]

theorem stepRecords_map_ct {M : Type} (env : TrainEnv M) (e : Nat) (m : M) (ct : Nat)
    (bs : List Batch) :
    (stepRecords env e m ct bs).map (fun r => r.lookup trainExampleCtKey) =
      (partialSums ct (bs.map List.length)).map (fun c => some ((c : Nat) : ℚ)) := by
  induction bs generalizing m ct with
  | nil => rfl
  | cons b bs ih =>
    simp only [stepRecords, List.map_cons, partialSums]
    rw [lookup_trainMetrics_ct, ih]

theorem runTrainRecords_map_ct {M : Type} (env : TrainEnv M) (tb : List Batch) (m : M)
    (ct : Nat) (es : List Nat) :
    (runTrainRecords env tb m ct es).map (fun r => r.lookup trainExampleCtKey) =
      (partialSums ct (runSizes tb es.length)).map (fun c => some ((c : Nat) : ℚ)) := by
  induction es generalizing m ct with
  | nil => rfl
  | cons e es ih =>
    simp only [runTrainRecords, List.map_append, List.length_cons, runSizes_succ,
      partialSums_append, stepRecords_map_ct, ih, List.map_append]

theorem stepRecords_map_loss {M : Type} (env : TrainEnv M) (e : Nat) (m : M) (ct : Nat)
    (bs : List Batch) :
    (stepRecords env e m ct bs).map (fun r => r.lookup trainLossKey) =
      (stepLosses env m bs).map some := by
  induction bs generalizing m ct with
  | nil => rfl
  | cons b bs ih =>
    simp only [stepRecords, stepLosses, List.map_cons]
    rw [lookup_trainMetrics_loss, ih]

theorem runTrainRecords_map_loss {M : Type} (env : TrainEnv M) (tb : List Batch) (m : M)
    (ct : Nat) (es : List Nat) :
    (runTrainRecords env tb m ct es).map (fun r => r.lookup trainLossKey) =
      (runLosses env tb m es.length).map some := by
  induction es generalizing m ct with
  | nil => rfl
  | cons e es ih =>
    simp only [runTrainRecords, List.map_append, List.length_cons, runLosses,
      stepRecords_map_loss, ih]

/-! ### The validation loop, characterized -/

/-- Folding the validation loop body accumulates the batch-weighted loss
sum and the total correct-prediction count. -/
theorem foldl_valStep (model : Input → List ℚ) (lf : List (List ℚ) → List Nat → ℚ)
    (bs : List Batch) (acc : ℚ × Nat) :
    bs.foldl (valStep model lf) acc =
      (acc.1 + (bs.map fun b =>
          lf ((b.map Prod.fst).map model) (b.map Prod.snd) * ((b.map Prod.snd).length : ℚ)).sum,
       acc.2 + (bs.map fun b => b.countP fun ex => argmax (model ex.1) == ex.2).sum) := by
  induction bs generalizing acc with
  | nil => simp
  | cons b bs ih =>
    rw [List.foldl_cons, ih]
    simp [valStep, add_assoc, Nat.add_assoc]

theorem valPair_eq (model : Input → List ℚ) (vdl : DataLoader)
    (lf : List (List ℚ) → List Nat → ℚ) :
    valPair model vdl lf =
      ((vdl.batches.map fun b =>
          lf ((b.map Prod.fst).map model) (b.map Prod.snd) * ((b.map Prod.snd).length : ℚ)).sum
          / (vdl.dataset.length : ℚ),
       (((vdl.batches.map fun b => b.countP fun ex => argmax (model ex.1) == ex.2).sum : Nat) : ℚ)
          / (vdl.dataset.length : ℚ)) := by
  unfold valPair
  rw [foldl_valStep]
  simp

/-- With a positive batch size, summing a per-batch count over the
batches counts over the whole dataset. -/
theorem correct_count_eq (vdl : DataLoader) (hbs : vdl.batch_size ≠ 0)
    (p : Input × Nat → Bool) :
    (vdl.batches.map fun b => b.countP p).sum = vdl.dataset.countP p :=
  calc (vdl.batches.map fun b => b.countP p).sum
      = vdl.batches.flatten.countP p := (List.countP_flatten p _).symm
    _ = vdl.dataset.countP p := by
        rw [DataLoader.batches, chunks_flatten _ hbs]

/-- The total correct-prediction count never exceeds the dataset size. -/
theorem correct_count_le (vdl : DataLoader) (p : Input × Nat → Bool) :
    (vdl.batches.map fun b => b.countP p).sum ≤ vdl.dataset.length :=
  calc (vdl.batches.map fun b => b.countP p).sum
      = vdl.batches.flatten.countP p := (List.countP_flatten p _).symm
    _ ≤ vdl.batches.flatten.length := List.countP_le_length p
    _ ≤ vdl.dataset.length := by
        rw [DataLoader.batches]
        exact chunks_flatten_length_le _ _

/-! ### The full trace of a successful run -/

theorem runState_events {M : Type} (env : TrainEnv M) (config : Config)
    (data : List (Input × Nat)) :
    (runState env config data).events =
      .init config ::
        epochEvents env (trainLoader config data).batches (validLoader config data)
            (env.initModel config.dropout) 0 (List.range config.epochs)
          ++ [.finish] := rfl

theorem runState_config {M : Type} (env : TrainEnv M) (config : Config)
    (data : List (Input × Nat)) : (runState env config data).config = config := rfl

theorem trainLoader_batch_size (config : Config) (data : List (Input × Nat)) :
    (trainLoader config data).batch_size = config.batch_size := rfl

theorem validLoader_dataset_length (config : Config) (data : List (Input × Nat)) :
    (validLoader config data).dataset.length =
      min ((Rat.floor (config.valid_pct * ((data.take config.slice_size).length : ℚ))).toNat)
        (data.take config.slice_size).length := by
  simp [validLoader, get_dataloaders, List.length_take]

theorem trainLoader_dataset_length (config : Config) (data : List (Input × Nat)) :
    (trainLoader config data).dataset.length =
      (data.take config.slice_size).length -
        (Rat.floor (config.valid_pct * ((data.take config.slice_size).length : ℚ))).toNat := by
  simp [trainLoader, get_dataloaders, List.length_drop]

theorem trainRecordsOf_cons_init (c : Config) (evs : List Event) :
    trainRecordsOf (.init c :: evs) = trainRecordsOf evs := by
  simp [trainRecordsOf, trainLogOf]

theorem trainRecordsOf_finish : trainRecordsOf [.finish] = [] := rfl

theorem exampleCtsOf_cons_init (c : Config) (evs : List Event) :
    exampleCtsOf (.init c :: evs) = exampleCtsOf evs := by
  simp [exampleCtsOf]

theorem exampleCtsOf_finish : exampleCtsOf [.finish] = [] := rfl

/-- The train records of a successful run, as one list across epochs. -/
theorem trainRecordsOf_runState {M : Type} (env : TrainEnv M) (config : Config)
    (data : List (Input × Nat)) :
    trainRecordsOf (runState env config data).events =
      runTrainRecords env (trainLoader config data).batches
        (env.initModel config.dropout) 0 (List.range config.epochs) := by
  rw [runState_events, trainRecordsOf_append, trainRecordsOf_cons_init,
    trainRecordsOf_finish, trainRecordsOf_epochEvents]
  simp

/-- The logged example counts of a successful run. -/
theorem exampleCtsOf_runState {M : Type} (env : TrainEnv M) (config : Config)
    (data : List (Input × Nat)) :
    exampleCtsOf (runState env config data).events =
      (partialSums 0 (runSizes (trainLoader config data).batches config.epochs)).map
        (Nat.cast : Nat → ℚ) := by
  rw [runState_events, exampleCtsOf_append, exampleCtsOf_cons_init,
    exampleCtsOf_finish, exampleCtsOf_epochEvents]
  simp [List.length_range]

/-! ### The small concrete run used by the witnesses -/

theorem validW_len : (validLoader cfgW dataW).dataset.length = 1 := by
  simp [validLoader, get_dataloaders, dataW, cfgW]
  norm_num [Rat.floor_def']

theorem run_ok_W : train_model envU cfgW dataW = .ok (runState envU cfgW dataW) := by
  apply train_model_ok
  · decide
  · right
    have h : (validLoader cfgW dataW).dataset.length = 1 := validW_len
    simp only [validLoader] at h
    omega

/-! ## The claims -/

/-- C1: For every Configuration, one completed call of `train_model`
emits exactly (epoch count × steps per epoch) + epoch count Metric
Records to the Tracking Client via `log`: one record per training step
plus one validation record per epoch, where steps per epoch is
ceil(training dataset size / batch size). -/
theorem claim_C1_record_count {M : Type} (env : TrainEnv M) (config : Config)
    (data : List (Input × Nat)) (s : TrainState M)
    (h : train_model env config data = .ok s) :
    s.events.countP isLogEvent =
      config.epochs *
          n_steps_per_epoch (trainLoader config data).dataset.length config.batch_size
        + config.epochs := by
  obtain ⟨hbs, hv, rfl⟩ := train_model_ok_inv env config data s h
  rw [runState_events]
  simp only [List.countP_append, List.countP_cons, List.countP_nil,
    countP_epochEvents_log, List.length_range]
  simp [isLogEvent]
  rw [DataLoader.batches, trainLoader_batch_size, chunks_length _ hbs]
  ring

/-- C1 witness: the small run `envU`/`cfgW`/`dataW` completes and its
trace has the claimed number of log calls. -/
theorem claim_C1_record_count_witness :
    (runState envU cfgW dataW).events.countP isLogEvent =
      cfgW.epochs *
          n_steps_per_epoch (trainLoader cfgW dataW).dataset.length cfgW.batch_size
        + cfgW.epochs :=
  claim_C1_record_count envU cfgW dataW _ run_ok_W

/-- C4: two runs of `train_model` with identical Configuration, the same
fixed random seed and the same data order (hence the same environment
`env`, which resolves all randomness, and the same `data`) produce
identical final validation accuracy. -/
theorem claim_C4_determinism {M : Type} (env : TrainEnv M) (c1 c2 : Config)
    (data : List (Input × Nat)) (h : c1 = c2) :
    (train_model env c1 data).map finalValAccuracy =
      (train_model env c2 data).map finalValAccuracy := by
  rw [h]

/-- C4 witness: at the concrete configuration `cfgW`. -/
theorem claim_C4_determinism_witness :
    (train_model envU cfgW dataW).map finalValAccuracy =
      (train_model envU cfgW dataW).map finalValAccuracy :=
  claim_C4_determinism envU cfgW cfgW dataW rfl

/-- C8: all fields of the Configuration are unchanged after
`train_model` returns: the state it hands back carries the very
configuration it was given. -/
theorem claim_C8_config_immutable {M : Type} (env : TrainEnv M) (config : Config)
    (data : List (Input × Nat)) (s : TrainState M)
    (h : train_model env config data = .ok s) :
    s.config = config := by
  obtain ⟨-, -, rfl⟩ := train_model_ok_inv env config data s h
  exact runState_config env config data

/-- C8 witness: at the small concrete run. -/
theorem claim_C8_config_immutable_witness : (runState envU cfgW dataW).config = cfgW :=
  claim_C8_config_immutable envU cfgW dataW _ run_ok_W

/-- C9: the trace of a completed run is: `init`, then for each epoch its
per-step train logs in step order followed by that epoch's single
validation log, then the next epoch, and finally exactly one `finish`,
after every `log` call. -/
theorem claim_C9_call_order {M : Type} (env : TrainEnv M) (config : Config)
    (data : List (Input × Nat)) (s : TrainState M)
    (h : train_model env config data = .ok s) :
    s.events =
      .init config ::
        epochEvents env (trainLoader config data).batches (validLoader config data)
            (env.initModel config.dropout) 0 (List.range config.epochs)
          ++ [.finish] ∧
      s.events.countP isFinishEvent = 1 ∧
      s.events.getLast? = some .finish := by
  obtain ⟨-, -, rfl⟩ := train_model_ok_inv env config data s h
  refine ⟨runState_events env config data, ?_, ?_⟩
  · rw [runState_events]
    simp only [List.countP_append, List.countP_cons, List.countP_nil,
      countP_epochEvents_finish]
    simp [isFinishEvent]
  · rw [runState_events, List.getLast?_concat]

/-- C9 witness: at the small concrete run. -/
theorem claim_C9_call_order_witness :
    (runState envU cfgW dataW).events =
      .init cfgW ::
        epochEvents envU (trainLoader cfgW dataW).batches (validLoader cfgW dataW)
            (envU.initModel cfgW.dropout) 0 (List.range cfgW.epochs)
          ++ [.finish] ∧
      (runState envU cfgW dataW).events.countP isFinishEvent = 1 ∧
      (runState envU cfgW dataW).events.getLast? = some .finish :=
  claim_C9_call_order envU cfgW dataW _ run_ok_W

/-- C10: `validate_model` divides by the validation dataset size with no
guard: on a non-empty validation dataset both divisions are well-defined
and the pair is returned, and on an empty one the division's error
branch (`ZeroDivisionError`) is reached. -/
theorem claim_C10_division_guard (model : Input → List ℚ) (vdl : DataLoader)
    (lf : List (List ℚ) → List Nat → ℚ) :
    (vdl.dataset.length ≠ 0 → validate_model model vdl lf = .ok (valPair model vdl lf)) ∧
      (vdl.dataset.length = 0 → validate_model model vdl lf = .error "ZeroDivisionError") :=
  ⟨validate_model_ok model vdl lf, validate_model_empty model vdl lf⟩

/-- C10 witness: on a one-example loader the pair is returned; on an
empty loader the error branch is reached. -/
theorem claim_C10_division_guard_witness :
    validate_model modelU vdlW lfU = .ok (valPair modelU vdlW lfU) ∧
      validate_model modelU vdlEmpty lfU = .error "ZeroDivisionError" :=
  ⟨(claim_C10_division_guard modelU vdlW lfU).1 (by simp [vdlW]),
   (claim_C10_division_guard modelU vdlEmpty lfU).2 (by simp [vdlEmpty])⟩

/-- C3: on a non-empty validation dataset (and a loader with positive
batch size), `validate_model` returns the pair whose first component is
the batch-size-weighted loss sum divided by the validation dataset size
and whose second is the number of examples whose argmax over the logits
equals their label, divided by the validation dataset size. -/
theorem claim_C3_validate_model (model : Input → List ℚ) (vdl : DataLoader)
    (lf : List (List ℚ) → List Nat → ℚ)
    (h1 : vdl.dataset.length ≠ 0) (h2 : vdl.batch_size ≠ 0) :
    validate_model model vdl lf =
      .ok ((vdl.batches.map fun b =>
              lf ((b.map Prod.fst).map model) (b.map Prod.snd) * (b.length : ℚ)).sum
              / (vdl.dataset.length : ℚ),
           (((vdl.dataset.countP fun ex => argmax (model ex.1) == ex.2) : Nat) : ℚ)
              / (vdl.dataset.length : ℚ)) := by
  rw [validate_model_ok _ _ _ h1, valPair_eq]
  rw [correct_count_eq vdl h2]
  simp [List.length_map]

/-- C3 witness: at the trivial model and one-example loader. -/
theorem claim_C3_validate_model_witness :
    validate_model modelU vdlW lfU =
      .ok ((vdlW.batches.map fun b =>
              lfU ((b.map Prod.fst).map modelU) (b.map Prod.snd) * (b.length : ℚ)).sum
              / (vdlW.dataset.length : ℚ),
           (((vdlW.dataset.countP fun ex => argmax (modelU ex.1) == ex.2) : Nat) : ℚ)
              / (vdlW.dataset.length : ℚ)) :=
  claim_C3_validate_model modelU vdlW lfU (by simp [vdlW]) (by simp [vdlW])

/-- C6: on a non-empty validation dataset, and for a loss function that
is non-negative on every batch (as `nn.CrossEntropyLoss` is), the
accuracy `validate_model` returns lies in [0, 1] and the validation loss
it returns is non-negative. -/
theorem claim_C6_bounds (model : Input → List ℚ) (vdl : DataLoader)
    (lf : List (List ℚ) → List Nat → ℚ)
    (h1 : vdl.dataset.length ≠ 0)
    (hl : ∀ outputs labels, 0 ≤ lf outputs labels) :
    ∃ p, validate_model model vdl lf = .ok p ∧ 0 ≤ p.1 ∧ 0 ≤ p.2 ∧ p.2 ≤ 1 := by
  refine ⟨valPair model vdl lf, validate_model_ok _ _ _ h1, ?_, ?_, ?_⟩
  · rw [valPair_eq]
    apply div_nonneg _ (by positivity)
    apply List.sum_nonneg
    intro x hx
    simp only [List.mem_map] at hx
    obtain ⟨b, -, rfl⟩ := hx
    exact mul_nonneg (hl _ _) (by positivity)
  · rw [valPair_eq]
    positivity
  · rw [valPair_eq]
    have hN : (0 : ℚ) < (vdl.dataset.length : ℚ) := by
      exact_mod_cast Nat.pos_of_ne_zero h1
    rw [div_le_one hN]
    exact_mod_cast correct_count_le vdl _

/-- C6 witness: at the trivial model, loss and one-example loader. -/
theorem claim_C6_bounds_witness :
    ∃ p, validate_model modelU vdlW lfU = .ok p ∧ 0 ≤ p.1 ∧ 0 ≤ p.2 ∧ p.2 ≤ 1 :=
  claim_C6_bounds modelU vdlW lfU (by simp [vdlW]) (fun _ _ => le_refl 0)

/-- C5: throughout a completed run, the logged running example count is
non-decreasing across successive training steps, and after every step it
equals the sum of the sizes of all batches processed so far in that run
(across epochs; `example_ct` is never reset). -/
theorem claim_C5_example_ct {M : Type} (env : TrainEnv M) (config : Config)
    (data : List (Input × Nat)) (s : TrainState M)
    (h : train_model env config data = .ok s) :
    List.Chain' (· ≤ ·) (exampleCtsOf s.events) ∧
      ∀ k (hk : k < (exampleCtsOf s.events).length),
        (exampleCtsOf s.events).get ⟨k, hk⟩ =
          ((((runSizes (trainLoader config data).batches config.epochs).take (k + 1)).sum
            : Nat) : ℚ) := by
  obtain ⟨-, -, rfl⟩ := train_model_ok_inv env config data s h
  have hev := exampleCtsOf_runState env config data
  constructor
  · rw [hev]
    exact (List.chain'_map _).mpr
      ((partialSums_chain _ _).imp fun a b hab => by exact_mod_cast hab)
  · intro k hk
    rw [List.get_of_eq hev ⟨k, hk⟩, List.get_map, partialSums_get]
    simp

/-- C5 witness: at the small concrete run. -/
theorem claim_C5_example_ct_witness :
    List.Chain' (· ≤ ·) (exampleCtsOf (runState envU cfgW dataW).events) ∧
      ∀ k (hk : k < (exampleCtsOf (runState envU cfgW dataW).events).length),
        (exampleCtsOf (runState envU cfgW dataW).events).get ⟨k, hk⟩ =
          ((((runSizes (trainLoader cfgW dataW).batches cfgW.epochs).take (k + 1)).sum
            : Nat) : ℚ) :=
  claim_C5_example_ct envU cfgW dataW _ run_ok_W

/-- C7: every training-step Metric Record of a completed run contains
exactly the keys train_loss, epoch and example_ct; the epoch values are
the 0-based epoch indices plus one (1-indexed), one per step of each
epoch in order; the example counts are the running batch-size sums; and
the loss values are the per-step training losses. -/
theorem claim_C7_record_fields {M : Type} (env : TrainEnv M) (config : Config)
    (data : List (Input × Nat)) (s : TrainState M)
    (h : train_model env config data = .ok s) :
    (∀ r ∈ trainRecordsOf s.events,
        r.map Prod.fst = [trainLossKey, trainEpochKey, trainExampleCtKey]) ∧
      (trainRecordsOf s.events).map (fun r => r.lookup trainEpochKey) =
        (List.range config.epochs).flatMap
          (fun e => List.replicate (trainLoader config data).batches.length
            (some ((e + 1 : Nat) : ℚ))) ∧
      (trainRecordsOf s.events).map (fun r => r.lookup trainExampleCtKey) =
        (partialSums 0 (runSizes (trainLoader config data).batches config.epochs)).map
          (fun c => some ((c : Nat) : ℚ)) ∧
      (trainRecordsOf s.events).map (fun r => r.lookup trainLossKey) =
        (runLosses env (trainLoader config data).batches
          (env.initModel config.dropout) config.epochs).map some := by
  obtain ⟨-, -, rfl⟩ := train_model_ok_inv env config data s h
  rw [trainRecordsOf_runState]
  refine ⟨?_, ?_, ?_, ?_⟩
  · intro r hr
    obtain ⟨l, e, c, -, rfl⟩ := mem_runTrainRecords env _ _ _ _ r hr
    exact trainMetrics_keys l e c
  · exact runTrainRecords_map_epoch env _ _ _ _
  · rw [runTrainRecords_map_ct, List.length_range]
  · rw [runTrainRecords_map_loss, List.length_range]

/-- C7 witness: at the small concrete run. -/
theorem claim_C7_record_fields_witness :
    (∀ r ∈ trainRecordsOf (runState envU cfgW dataW).events,
        r.map Prod.fst = [trainLossKey, trainEpochKey, trainExampleCtKey]) ∧
      (trainRecordsOf (runState envU cfgW dataW).events).map
          (fun r => r.lookup trainEpochKey) =
        (List.range cfgW.epochs).flatMap
          (fun e => List.replicate (trainLoader cfgW dataW).batches.length
            (some ((e + 1 : Nat) : ℚ))) ∧
      (trainRecordsOf (runState envU cfgW dataW).events).map
          (fun r => r.lookup trainExampleCtKey) =
        (partialSums 0 (runSizes (trainLoader cfgW dataW).batches cfgW.epochs)).map
          (fun c => some ((c : Nat) : ℚ)) ∧
      (trainRecordsOf (runState envU cfgW dataW).events).map
          (fun r => r.lookup trainLossKey) =
        (runLosses envU (trainLoader cfgW dataW).batches
          (envU.initModel cfgW.dropout) cfgW.epochs).map some :=
  claim_C7_record_fields envU cfgW dataW _ run_ok_W

/-- C2: for the spec's example Configuration
{epochs=1, batch_size=128, slice_size=10000, valid_pct=0.2} on a
10000-example dataset, `train_model` emits exactly ceil(8000/128) = 63
training-step Metric Records and exactly 1 validation Metric Record. -/
theorem claim_C2_example_scenario {M : Type} (env : TrainEnv M) (lr dropout : ℚ) :
    (train_model env (cfg10k lr dropout) data10k).map
        (fun s => (s.events.countP isTrainLog, s.events.countP isValLog)) =
      .ok (63, 1) := by
  have hsl : (data10k.take (10000 : Nat)).length = 10000 := by
    rw [List.length_take]
    norm_num [data10k]
  have hvl : (validLoader (cfg10k lr dropout) data10k).dataset.length = 2000 := by
    rw [validLoader_dataset_length]
    simp only [cfg10k]
    rw [hsl]
    norm_num [Rat.floor_def']
    decide
  have htl : (trainLoader (cfg10k lr dropout) data10k).dataset.length = 8000 := by
    rw [trainLoader_dataset_length]
    simp only [cfg10k]
    rw [hsl]
    norm_num [Rat.floor_def']
    decide
  have hbs : (cfg10k lr dropout).batch_size ≠ 0 := by simp [cfg10k]
  have hok := train_model_ok env (cfg10k lr dropout) data10k hbs
    (.inr (by simp only [validLoader] at hvl; omega))
  rw [hok]
  simp only [Except.map]
  rw [runState_events]
  simp only [List.countP_append, List.countP_cons, List.countP_nil,
    countP_epochEvents_trainLog, countP_epochEvents_valLog, List.length_range]
  simp only [isTrainLog, isValLog]
  rw [DataLoader.batches, trainLoader_batch_size, chunks_length _ hbs, htl]
  norm_num [cfg10k, n_steps_per_epoch]

end WandbIntro
